import Mathlib

/-
Verification development for the Boletín Oficial expenditure-analysis pipeline
(src/boletin_analisis_completo.py).

The Python source is shallowly embedded below.  Monetary values (Python floats
produced by `float(...)` on decimal strings) are modelled as exact rationals ℚ;
the decimal strings handled by the program have at most two fraction digits, so
ordering and the positivity test agree with the float semantics on all inputs
exercised here.  File I/O is modelled by an explicit `FState` (the per-date
dataset file and the optional `_pendientes` sidecar); the external collaborators
(HTTP document fetch + PDF text extraction, the Selenium tender scraper, and the
Gradio summarization client) enter as explicit inputs of a `RunEnv`, mirroring
the spec's collaborator boundaries.
-/

namespace Boletin

/-! ## AmountParser: `extract_amounts` and the regex `\$\s?(\d{1,3}(?:\.\d{3})*(?:,\d{1,2})?)`

`re.finditer` scans left to right; at a `$` the greedy pattern takes one
optional whitespace, then up to three digits, then as many `.ddd` groups as
possible, then an optional `,d` or `,dd` fraction.  No backtracking beyond the
optional whitespace can change the result (everything after the first digit
block can match the empty string), so the scan below is an exact model. -/

/-- Greedily take up to `n` leading decimal digits. -/
def takeDigits : Nat → List Char → List Char × List Char
  | 0, cs => ([], cs)
  | _ + 1, [] => ([], [])
  | n + 1, c :: cs =>
    if c.isDigit then
      let p := takeDigits n cs
      (c :: p.1, p.2)
    else ([], c :: cs)

/-- Greedily consume `.ddd` groups (the regex `(?:\.\d{3})*`), returning the
collected digits (separators stripped) and the rest. -/
def matchGroups : List Char → List Char × List Char
  | '.' :: c1 :: c2 :: c3 :: rest =>
    if c1.isDigit && c2.isDigit && c3.isDigit then
      let p := matchGroups rest
      (c1 :: c2 :: c3 :: p.1, p.2)
    else ([], '.' :: c1 :: c2 :: c3 :: rest)
  | cs => ([], cs)

/-- The optional fraction `(?:,\d{1,2})?`: a comma followed by one or (greedily)
two digits. -/
def matchFrac (cs : List Char) : List Char × List Char :=
  match cs with
  | ',' :: rest =>
    let p := takeDigits 2 rest
    if p.1.isEmpty then ([], ',' :: rest) else (p.1, p.2)
  | _ => ([], cs)

/-- Decimal value of a digit string (most significant first). -/
def natOfDigits (ds : List Char) : Nat :=
  ds.foldl (fun a c => 10 * a + (c.toNat - 48)) 0

/-- Value of a matched amount, modelling Python's
`float(m.group(1).replace('.', '').replace(',', '.'))` exactly as a rational. -/
def ratOfMatch (intDigits fracDigits : List Char) : ℚ :=
  (natOfDigits intDigits : ℚ) + (natOfDigits fracDigits : ℚ) / (10 : ℚ) ^ fracDigits.length

/-- Match the numeric part of the regex right after the `$` (and optional
whitespace): at least one digit, then groups, then the optional fraction. -/
def matchNumber (cs : List Char) : Option (ℚ × List Char) :=
  let d := takeDigits 3 cs
  if d.1.isEmpty then none
  else
    let g := matchGroups d.2
    let f := matchFrac g.2
    some (ratOfMatch (d.1 ++ g.1) f.1, f.2)

/-- Try to match the regex body after a `$`: the greedy `\s?` consumes one
whitespace character only if a digit block can follow it (if the character
after the whitespace is not a digit, backtracking to the no-whitespace
alternative also fails, since the whitespace itself is not a digit). -/
def tryMatch (cs : List Char) : Option (ℚ × List Char) :=
  match cs with
  | [] => none
  | c :: rest => if c.isWhitespace then matchNumber rest else matchNumber (c :: rest)

/-- The `finditer` scan.  `fuel` is an upper bound on the number of characters
still to inspect; every step consumes at least one character, so running with
`fuel = text.length` visits the whole text. -/
def scanAmounts : Nat → List Char → List ℚ
  | 0, _ => []
  | _ + 1, [] => []
  | fuel + 1, c :: rest =>
    if c = '$' then
      match tryMatch rest with
      | some pr => if 0 < pr.1 then pr.1 :: scanAmounts fuel pr.2 else scanAmounts fuel pr.2
      | none => scanAmounts fuel rest
    else scanAmounts fuel rest

/-- `extract_amounts` (src lines 43-52): all positive amounts matched by
`AMOUNT_REGEX`, in order of occurrence; zero-valued matches are dropped by the
`val > 0` guard and a text without matches yields `[]`. -/
def extract_amounts (text : String) : List ℚ :=
  scanAmounts text.data.length text.data

/-- `clean_organismo` (src lines 37-41): `strip`, `rstrip('-')`, `rstrip`,
`strip`; a falsy (empty) input becomes `"Otros"`. -/
def clean_organismo (org : String) : String :=
  if org = "" then "Otros"
  else (((org.trim).dropRightWhile (fun c => c = '-')).dropRightWhile Char.isWhitespace).trim

/-- Python's `max` over a non-empty list (the `[]` case is unreachable at every
call site, which guards on non-emptiness). -/
def list_max : List ℚ → ℚ
  | [] => 0
  | a :: rest => rest.foldl max a

/-- Insert a thousands separator before every digit whose distance to the end
of the digit string is a positive multiple of three. -/
def groupThousands (s : String) : String :=
  let n := s.data.length
  String.mk ((List.range n).flatMap (fun i =>
    let c := s.data.getD i ' '
    if i ≠ 0 ∧ (n - i) % 3 = 0 then [',', c] else [c]))

/-- Models `f"${v:,.2f}"` for the positive amounts the pipeline formats.
Rounding of an exact half-cent uses `round` on ℚ where CPython rounds the
nearest binary double; no claim depends on the rendered string. -/
def format_money (v : ℚ) : String :=
  let cents : ℤ := round (100 * v)
  let ip := (cents / 100).toNat
  let fp := (cents % 100).toNat
  "$" ++ groupThousands (toString ip) ++ "." ++
    (if fp < 10 then "0" ++ toString fp else toString fp)

/-! ## Data model

One structure per JSON record shape.  Keys that a record acquires only later in
its lifecycle (`text_snippet`, `monto`, …) are `Option` fields defaulting to
`none` (= key absent).  The derived display string `monto_fmt` is kept; its
formatter models `f"${monto:,.2f}"` (rounding at the exact half-cent follows
`round` on ℚ rather than binary-float round-half-even; no claim depends on the
formatted text). -/

structure Anexo where
  nombre : String
  url : String
  resumen : Option String := none
deriving DecidableEq

structure Norm where
  nombre : String
  sumario : String
  url : String
  tipo : String
  organismo : String
  anexos : List Anexo := []
  text_snippet : Option String := none
  monto : Option ℚ := none
  monto_fmt : Option String := none
  todos_montos : Option Nat := none
  tiene_gasto : Option Bool := none
  resumen_corto : Option String := none
  resumen_largo : Option String := none
deriving DecidableEq

structure Tender where
  numero : String
  nombre : String
  tipo : String
  fecha : String
  estado : String
  unidad : String
  link_id : String
  url : String
  monto : Option ℚ := none
  monto_fmt : Option String := none
  descripcion : Option String := none
  resumen_ia : Option String := none
deriving DecidableEq

/-- The per-date dataset file `datos/<fecha>.json` (src lines 374-385). -/
structure DayData where
  fecha : String
  fecha_display : String
  numero_boletin : String
  total_normas : Nat
  total_anexos : Nat
  organismos : List String
  gastos : List Norm
  sin_gastos : List Norm
  licitaciones : List Tender
  errores : Nat
deriving DecidableEq

/-- The sidecar `datos/<fecha>_pendientes.json` (src lines 390-392). -/
structure PendingData where
  fecha : String
  pendientes : List Norm
deriving DecidableEq

/-- The two per-date files; `none` = file absent.  JSON serialization is
deterministic and injective on these shapes, so "byte-for-byte equal file"
is modelled as equality of the parsed values. -/
structure FState where
  dataFile : Option DayData
  pendingFile : Option PendingData
deriving DecidableEq

/-! ## Collaborator boundaries -/

/-- Outcome of `requests.get(url)` combined with PDF text extraction: a status
code with the document's extracted text, a timeout, or another transport or
parse error (whose message Python truncates to 50 characters). -/
inductive FetchResult where
  | ok (status : Nat) (text : String)
  | timeout
  | transport (msg : String)
deriving DecidableEq

/-- `process_norm` (src lines 62-83).  On a 200 response the item gains
`text_snippet = text[:800]`; if the parser found amounts it becomes an
expenditure record (`monto = max`, `todos_montos = len`, `tiene_gasto`),
otherwise `tiene_gasto = False`.  Failures return the item untouched together
with an error tag. -/
def process_norm (item : Norm) (fetch : FetchResult) : Bool × Norm × Option String :=
  match fetch with
  | FetchResult.ok status text =>
    if status ≠ 200 then (false, item, some ("HTTP " ++ toString status))
    else
      let amounts := extract_amounts text
      let item1 := { item with text_snippet := some (text.take 800) }
      if amounts.isEmpty then (true, { item1 with tiene_gasto := some false }, none)
      else
        let m := list_max amounts
        (true, { item1 with monto := some m,
                            monto_fmt := some (format_money m),
                            todos_montos := some amounts.length,
                            tiene_gasto := some true }, none)
  | FetchResult.timeout => (false, item, some "timeout")
  | FetchResult.transport msg => (false, item, some (msg.take 50))

/-- `process_anexo` (src lines 85-93): the fetch outcome carries the extracted
text of the attachment's first three pages; a 200 yields `text[:1000]`, any
failure yields `""`. -/
def process_anexo (fetch : FetchResult) : String :=
  match fetch with
  | FetchResult.ok status text => if status = 200 then text.take 1000 else ""
  | _ => ""

/-- The framing marker the adapter strips from the service response. -/
def RESPONSE_MARKER : String := "**💬 Response:**"

/-- `get_ai_summary` (src lines 54-60).  `response` is the collaborator
outcome of `client.predict` (`none` = the call raised).  Every failure is
swallowed and becomes the empty string; a successful response is stripped of
the `RESPONSE_MARKER` framing and trimmed. -/
def get_ai_summary (response : Option String) : String :=
  match response with
  | none => ""
  | some result =>
    let parts := result.splitOn RESPONSE_MARKER
    let resp := if parts.length > 1 then (parts.getD 1 "").trim else result
    resp.trim

/-! ## Summarization stage helpers (src lines 330-370) -/

/-- System prompt for the short title-style summary. -/
def CORTO : String := "Genera un TITULO MUY BREVE (máximo 12 palabras) que resuma QUÉ se compra. Estilo telegráfico. Ejemplo: \x27Compra de insumos hospitalarios\x27"

/-- System prompt for the long contextual summary. -/
def LARGO : String := "Explica en 3-4 oraciones claras el contexto: para qué se usa, quién lo pide y por qué es importante. No repitas el título."

/-- System prompt for tender summaries. -/
def LIC_PROMPT : String := "Resume en 2 oraciones qué se licita."

/-- The user prompt built for an expenditure record (src line 342). -/
def gasto_prompt (g : Norm) : String :=
  "Norma: " ++ g.nombre ++ "\nOrganismo: " ++ g.organismo ++ "\nMonto: " ++
    (g.monto_fmt.getD "") ++ "\nTexto: " ++ (g.text_snippet.getD "").take 500

/-- The user prompt for a non-expenditure record (src line 349). -/
def sin_gasto_prompt (s : Norm) : String := "Norma: " ++ s.nombre ++ "\n" ++ s.sumario

/-- The user prompt for a tender (src line 355). -/
def lic_prompt (l : Tender) : String :=
  "Licitación: " ++ l.nombre ++ "\nUnidad: " ++ l.unidad ++ "\n" ++
    (l.descripcion.getD "").take 300

/-- The user prompt for an attachment (src line 365). -/
def anexo_prompt (a : Anexo) (texto : String) : String := "Anexo: " ++ a.nombre ++ "\n" ++ texto

/-- The summarization collaborator: `(prompt, system prompt) ↦` raw response,
`none` when `client.predict` raises. -/
abbrev SummarizeSvc := String → String → Option String

/-- Src lines 340-345: `resumen_corto`/`resumen_largo` with the Python `or`
falling back to the record's own `sumario` when the adapter returns `""`. -/
def summarize_gasto (svc : SummarizeSvc) (g : Norm) : Norm :=
  let prompt := gasto_prompt g
  let corto := get_ai_summary (svc prompt CORTO)
  let largo := get_ai_summary (svc prompt LARGO)
  { g with resumen_corto := some (if corto = "" then g.sumario else corto),
           resumen_largo := some (if largo = "" then g.sumario else largo) }

/-- Src lines 347-350. -/
def summarize_sin_gasto (svc : SummarizeSvc) (s : Norm) : Norm :=
  let r := get_ai_summary (svc (sin_gasto_prompt s) CORTO)
  { s with resumen_corto := some (if r = "" then s.sumario else r) }

/-- Src lines 353-357: the fallback is the tender's name. -/
def summarize_lic (svc : SummarizeSvc) (l : Tender) : Tender :=
  let r := get_ai_summary (svc (lic_prompt l) LIC_PROMPT)
  { l with resumen_ia := some (if r = "" then l.nombre else r) }

/-- Src lines 360-367: attachments of a norm get `resumen` from the adapter
when their text was extracted, `""` otherwise (no `or` fallback here). -/
def summarize_anexos (svc : SummarizeSvc) (anexoFetch : String → FetchResult) (n : Norm) : Norm :=
  { n with anexos := n.anexos.map (fun a =>
      let texto := process_anexo (anexoFetch a.url)
      if texto ≠ "" then
        { a with resumen := some (get_ai_summary (svc (anexo_prompt a texto) "Resume brevemente el anexo.")) }
      else { a with resumen := some "" }) }

/-- Apply `f` in place to the first `n` elements only, modelling Python's
`for x in xs[:n]: mutate x`. -/
def mapFirst (n : Nat) (f : α → α) (l : List α) : List α := (l.take n).map f ++ l.drop n

/-! ## Aggregation: sorting and the organization list -/

/-- The sort key `x.get('monto', 0)`. -/
def montoKey (g : Norm) : ℚ := g.monto.getD 0

/-- "`a` may come before `b`" in the descending-by-amount order of
`gastos.sort(key=lambda x: x.get('monto', 0), reverse=True)`. -/
def gastoOrder (a b : Norm) : Prop := montoKey b ≤ montoKey a

instance : DecidableRel gastoOrder :=
  fun a b => inferInstanceAs (Decidable (montoKey b ≤ montoKey a))

instance : IsTotal Norm gastoOrder := ⟨fun a b => le_total (montoKey b) (montoKey a)⟩

instance : IsTrans Norm gastoOrder := ⟨fun _ _ _ h1 h2 => le_trans h2 h1⟩

/-- Python's `list.sort(key=..., reverse=True)` is a stable descending sort;
any two stable sorts for the same total preorder coincide, so the insertion
sort is an exact model. -/
def sortGastosDesc (l : List Norm) : List Norm := List.insertionSort gastoOrder l

/-- CPython's `str` comparison: lexicographic by code point. -/
def charListLe : List Char → List Char → Bool
  | [], _ => true
  | _ :: _, [] => false
  | a :: as, b :: bs => if a = b then charListLe as bs else decide (a < b)

/-- Src line 372: `sorted(set(g.get('organismo', '') for g in gastos if g.get('organismo')))`
— the distinct non-empty (truthy) organization names of the expenditure list,
sorted ascending by CPython's code-point-lexicographic `str` order. -/
def organismos_unicos (gastos : List Norm) : List String :=
  List.insertionSort (fun a b => charListLe a.data b.data = true)
    ((gastos.filterMap (fun g => if g.organismo = "" then none else some g.organismo)).dedup)

/-! ## Ingestion (src lines 285-306) -/

/-- One attachment descriptor of the bulletin index. -/
structure ApiAnexo where
  nombre_anexo : String
  filenet_firmado : String

/-- One norm entry of the bulletin index. -/
structure ApiNorm where
  nombre : String
  sumario : String
  url_norma : String
  anexos : List ApiAnexo := []

/-- `data['normas']['normas']`: power → type → organization → entries, as
insertion-ordered association lists (Python dict iteration order). -/
abbrev NormasRoot := List (String × List (String × List (String × List ApiNorm)))

/-- The triple-nested flattening loop (src lines 288-303): organization names
are cleaned immediately; each entry becomes a `Norm` with no extraction or
summarization fields yet. -/
def flatten_norms (root : NormasRoot) : List Norm :=
  root.flatMap (fun poder =>
    poder.2.flatMap (fun tipoPair =>
      tipoPair.2.flatMap (fun orgPair =>
        orgPair.2.map (fun item =>
          { nombre := item.nombre, sumario := item.sumario, url := item.url_norma,
            tipo := tipoPair.1, organismo := clean_organismo orgPair.1,
            anexos := item.anexos.map (fun a =>
              { nombre := a.nombre_anexo, url := a.filenet_firmado }) }))))

/-! ## The two processing loops -/

/-- First-run loop (src lines 310-323): split into
`(gastos, sin_gastos, pendientes)`; failed items are kept verbatim. -/
def processNorms (fetchDoc : String → FetchResult) : List Norm → List Norm × List Norm × List Norm
  | [] => ([], [], [])
  | item :: rest =>
    let r := process_norm item (fetchDoc item.url)
    let t := processNorms fetchDoc rest
    if r.1 then
      if r.2.1.tiene_gasto = some true then (r.2.1 :: t.1, t.2.1, t.2.2)
      else (t.1, r.2.1 :: t.2.1, t.2.2)
    else (t.1, t.2.1, item :: t.2.2)

/-- Retry loop (src lines 246-261): like the first-run loop, but
`organismo` is re-cleaned on the processed item; since `process_norm` returns
the very same (mutated) dict, a failed item also carries the cleaned name into
`aun_pendientes`. -/
def processPendientes (fetchDoc : String → FetchResult) : List Norm → List Norm × List Norm × List Norm
  | [] => ([], [], [])
  | item :: rest =>
    let r := process_norm item (fetchDoc item.url)
    let processed := { r.2.1 with organismo := clean_organismo r.2.1.organismo }
    let t := processPendientes fetchDoc rest
    if r.1 then
      if processed.tiene_gasto = some true then (processed :: t.1, t.2.1, t.2.2)
      else (t.1, processed :: t.2.1, t.2.2)
    else (t.1, t.2.1, processed :: t.2.2)

/-! ## Orchestration (`main`, src lines 212-400) -/

/-- All collaborator responses and bulletin-header data of one invocation.
`licitaciones` is what `scrape_licitaciones` returns for the date (the Selenium
walk is a collaborator; on any scraper error it returns the — possibly empty —
list gathered so far, with no success flag). -/
structure RunEnv where
  fecha_iso : String
  fecha_raw : String
  numero : String
  normasRoot : NormasRoot
  fetchDoc : String → FetchResult
  anexoFetch : String → FetchResult
  licitaciones : List Tender
  aiAvailable : Bool
  svc : SummarizeSvc

/-- The AI-summaries block (src lines 330-370).  The whole block is inside one
`try`; if constructing the Gradio client fails (`aiAvailable = false`) every
summary is skipped.  Individual call failures are already absorbed inside
`get_ai_summary`/`process_anexo`, so nothing else can abort the block. -/
def ai_stage (env : RunEnv) (gastos1 sin0 : List Norm) (lics : List Tender) :
    List Norm × List Norm × List Tender :=
  if env.aiAvailable then
    ((mapFirst 50 (summarize_gasto env.svc) gastos1).map (summarize_anexos env.svc env.anexoFetch),
     (mapFirst 30 (summarize_sin_gasto env.svc) sin0).map (summarize_anexos env.svc env.anexoFetch),
     mapFirst 20 (summarize_lic env.svc) lics)
  else (gastos1, sin0, lics)

/-- NORMAL MODE (src lines 281-395): flatten, classify every norm, sort the
expenditures, scrape tenders, run the AI block, assemble `day_data` (with
`sin_gastos` capped at 50), and write the pending sidecar iff some norm
failed. -/
def firstRun (env : RunEnv) : DayData × Option PendingData :=
  let all_norms := flatten_norms env.normasRoot
  let total_anexos := (all_norms.map (fun n => n.anexos.length)).sum
  let res := processNorms env.fetchDoc all_norms
  let gastos1 := sortGastosDesc res.1
  let step := ai_stage env gastos1 res.2.1 env.licitaciones
  let day_data : DayData :=
    { fecha := env.fecha_iso, fecha_display := env.fecha_raw, numero_boletin := env.numero,
      total_normas := all_norms.length, total_anexos := total_anexos,
      organismos := organismos_unicos step.1,
      gastos := step.1, sin_gastos := step.2.1.take 50,
      licitaciones := step.2.2, errores := res.2.2.length }
  (day_data,
   if res.2.2.isEmpty then none
   else some { fecha := env.fecha_iso, pendientes := res.2.2 })

/-- RETRY MODE (src lines 235-279): process the pending items, extend both
lists, re-sort the expenditures, re-clean every expenditure's organization
name, keep all other dataset fields (including `organismos` and `errores`)
as they were, and rewrite or delete the sidecar. -/
def retryRun (existing : DayData) (pending : PendingData) (fetchDoc : String → FetchResult) :
    DayData × Option PendingData :=
  let t := processPendientes fetchDoc pending.pendientes
  let gastos2 := (sortGastosDesc (existing.gastos ++ t.1)).map
    (fun g => { g with organismo := clean_organismo g.organismo })
  let newData := { existing with gastos := gastos2, sin_gastos := existing.sin_gastos ++ t.2.1 }
  (newData, if t.2.2.isEmpty then none else some { pending with pendientes := t.2.2 })

/-- `main` (src lines 212-400) as a transformer of the two per-date files:
retry mode when the sidecar exists, normal mode when neither file exists,
no-op skip when the dataset exists without a sidecar.  A sidecar without a
dataset file makes the Python run crash on `open(data_file)` before any write,
leaving both files unchanged. -/
def main (env : RunEnv) (fs : FState) : FState :=
  match fs.pendingFile, fs.dataFile with
  | some pending, some existing =>
    let r := retryRun existing pending env.fetchDoc
    { dataFile := some r.1, pendingFile := r.2 }
  | some _, none => fs
  | none, none =>
    let r := firstRun env
    { dataFile := some r.1, pendingFile := r.2 }
  | none, some _ => fs

/-- `organismo` re-cleaning applied to an already-built record (retry mode,
src lines 249 and 268). -/
def cleanNormOrg (n : Norm) : Norm := { n with organismo := clean_organismo n.organismo }

/-- Per-item success of the extraction stage for a given fetch collaborator. -/
def normSuccess (fetchDoc : String → FetchResult) (it : Norm) : Bool :=
  (process_norm it (fetchDoc it.url)).1

/-! ## Helper lemmas -/

lemma le_foldl_max (l : List ℚ) : ∀ a : ℚ, a ≤ l.foldl max a := by
  induction l with
  | nil => intro a; exact le_refl a
  | cons b t ih => intro a; exact le_trans (le_max_left a b) (ih (max a b))

lemma mem_le_foldl_max (l : List ℚ) : ∀ a : ℚ, ∀ v ∈ l, v ≤ l.foldl max a := by
  induction l with
  | nil => intro a v hv; cases hv
  | cons b t ih =>
    intro a v hv
    rcases List.mem_cons.mp hv with h | h
    · subst h; exact le_trans (le_max_right a v) (le_foldl_max t (max a v))
    · exact ih (max a b) v h

lemma foldl_max_mem (l : List ℚ) : ∀ a : ℚ, l.foldl max a = a ∨ l.foldl max a ∈ l := by
  induction l with
  | nil => intro a; exact Or.inl rfl
  | cons b t ih =>
    intro a
    rcases ih (max a b) with h | h
    · rcases max_choice a b with hm | hm
      · exact Or.inl (by rw [List.foldl_cons, h, hm])
      · exact Or.inr (by rw [List.foldl_cons, h, hm]; exact List.mem_cons_self b t)
    · exact Or.inr (List.mem_cons_of_mem b h)

lemma list_max_mem (l : List ℚ) (h : l ≠ []) : list_max l ∈ l := by
  cases l with
  | nil => exact absurd rfl h
  | cons a t =>
    rcases foldl_max_mem t a with h1 | h1
    · rw [list_max, h1]; exact List.mem_cons_self a t
    · rw [list_max]; exact List.mem_cons_of_mem a h1

lemma list_max_ge (l : List ℚ) : ∀ v ∈ l, v ≤ list_max l := by
  cases l with
  | nil => intro v hv; cases hv
  | cons a t =>
    intro v hv
    rcases List.mem_cons.mp hv with h | h
    · subst h; exact le_foldl_max t v
    · exact mem_le_foldl_max t a v h

/-- `process_norm` only ever touches `text_snippet`, `monto`, `monto_fmt`,
`todos_montos` and `tiene_gasto`: identity and summary fields pass through. -/
lemma process_norm_frame (item : Norm) (f : FetchResult) :
    ((process_norm item f).2.1).url = item.url ∧
    ((process_norm item f).2.1).organismo = item.organismo ∧
    ((process_norm item f).2.1).resumen_corto = item.resumen_corto ∧
    ((process_norm item f).2.1).resumen_largo = item.resumen_largo := by
  cases f with
  | ok status text =>
    simp only [process_norm]
    split_ifs <;> exact ⟨rfl, rfl, rfl, rfl⟩
  | timeout => exact ⟨rfl, rfl, rfl, rfl⟩
  | transport msg => exact ⟨rfl, rfl, rfl, rfl⟩

/-- On any failure `process_norm` returns the item unchanged. -/
lemma process_norm_fail (item : Norm) (f : FetchResult)
    (h : (process_norm item f).1 = false) : (process_norm item f).2.1 = item := by
  cases f with
  | ok status text =>
    by_cases h1 : status ≠ 200
    · simp [process_norm, h1]
    · exfalso
      simp only [process_norm, h1, if_false] at h
      split at h <;> simp at h
  | timeout => rfl
  | transport msg => rfl

/-- The retry loop's still-pending output is exactly the failed input items
(with the organization name cleaned, as the in-place mutation does). -/
lemma processPendientes_pendientes (fetchDoc : String → FetchResult) (l : List Norm) :
    (processPendientes fetchDoc l).2.2 =
      (l.filter (fun it => !(normSuccess fetchDoc it))).map cleanNormOrg := by
  induction l with
  | nil => rfl
  | cons item rest ih =>
    by_cases hs : (process_norm item (fetchDoc item.url)).1
    · simp only [processPendientes, hs, if_true, List.filter_cons, normSuccess,
        Bool.not_true, Bool.false_eq_true, if_false]
      split <;> exact ih
    · simp only [Bool.not_eq_true] at hs
      simp only [processPendientes, hs, Bool.false_eq_true, if_false, List.filter_cons,
        normSuccess, Bool.not_false, if_true, List.map_cons]
      rw [process_norm_fail _ _ hs, ih]
      rfl

/-- The retry loop classifies exactly the successful items. -/
lemma processPendientes_count (fetchDoc : String → FetchResult) (l : List Norm) :
    (processPendientes fetchDoc l).1.length + (processPendientes fetchDoc l).2.1.length =
      (l.filter (normSuccess fetchDoc)).length := by
  induction l with
  | nil => rfl
  | cons item rest ih =>
    by_cases hs : (process_norm item (fetchDoc item.url)).1
    · simp only [processPendientes, hs, if_true, List.filter_cons, normSuccess]
      split <;> simp only [List.length_cons] <;> omega
    · simp only [Bool.not_eq_true] at hs
      simp only [processPendientes, hs, Bool.false_eq_true, if_false, List.filter_cons,
        normSuccess]
      exact ih

/-- Every classified output of the retry loop carries the summary fields of
some input item (the loop never writes summaries). -/
lemma processPendientes_summaries (fetchDoc : String → FetchResult) (l : List Norm) :
    ∀ g, (g ∈ (processPendientes fetchDoc l).1 ∨ g ∈ (processPendientes fetchDoc l).2.1) →
      ∃ it ∈ l, g.resumen_corto = it.resumen_corto ∧ g.resumen_largo = it.resumen_largo := by
  induction l with
  | nil => intro g hg; rcases hg with h | h <;> cases h
  | cons item rest ih =>
    intro g hg
    have hframe := process_norm_frame item (fetchDoc item.url)
    have hclean : ∀ n : Norm, (cleanNormOrg n).resumen_corto = n.resumen_corto ∧
        (cleanNormOrg n).resumen_largo = n.resumen_largo := fun n => ⟨rfl, rfl⟩
    by_cases hs : (process_norm item (fetchDoc item.url)).1
    · simp only [processPendientes, hs, if_true] at hg
      split at hg
      · rcases hg with h | h
        · rcases List.mem_cons.mp h with h1 | h1
          · refine ⟨item, List.mem_cons_self item rest, ?_⟩
            subst h1
            exact ⟨(hclean _).1.trans hframe.2.2.1, (hclean _).2.trans hframe.2.2.2⟩
          · rcases ih g (Or.inl h1) with ⟨it, hit, hpr⟩
            exact ⟨it, List.mem_cons_of_mem item hit, hpr⟩
        · rcases ih g (Or.inr h) with ⟨it, hit, hpr⟩
          exact ⟨it, List.mem_cons_of_mem item hit, hpr⟩
      · rcases hg with h | h
        · rcases ih g (Or.inl h) with ⟨it, hit, hpr⟩
          exact ⟨it, List.mem_cons_of_mem item hit, hpr⟩
        · rcases List.mem_cons.mp h with h1 | h1
          · refine ⟨item, List.mem_cons_self item rest, ?_⟩
            subst h1
            exact ⟨(hclean _).1.trans hframe.2.2.1, (hclean _).2.trans hframe.2.2.2⟩
          · rcases ih g (Or.inr h1) with ⟨it, hit, hpr⟩
            exact ⟨it, List.mem_cons_of_mem item hit, hpr⟩
    · simp only [Bool.not_eq_true] at hs
      simp only [processPendientes, hs, Bool.false_eq_true, if_false] at hg
      rcases ih g hg with ⟨it, hit, hpr⟩
      exact ⟨it, List.mem_cons_of_mem item hit, hpr⟩

/-- The first-run loop's pending output is exactly the failed input items,
untouched. -/
lemma processNorms_pendientes (fetchDoc : String → FetchResult) (l : List Norm) :
    (processNorms fetchDoc l).2.2 = l.filter (fun it => !(normSuccess fetchDoc it)) := by
  induction l with
  | nil => rfl
  | cons item rest ih =>
    by_cases hs : (process_norm item (fetchDoc item.url)).1
    · simp only [processNorms, hs, if_true, List.filter_cons, normSuccess,
        Bool.not_true, Bool.false_eq_true, if_false]
      split <;> exact ih
    · simp only [Bool.not_eq_true] at hs
      simp only [processNorms, hs, Bool.false_eq_true, if_false, List.filter_cons,
        normSuccess, Bool.not_false, if_true]
      rw [ih]
      rfl

/-- Pending items of the first run are input items (they are kept verbatim). -/
lemma processNorms_pendientes_mem (fetchDoc : String → FetchResult) (l : List Norm) :
    ∀ it ∈ (processNorms fetchDoc l).2.2, it ∈ l := by
  intro it hit
  rw [processNorms_pendientes] at hit
  exact List.mem_of_mem_filter hit

/-- Norms created by the ingestion flattening have no summary fields yet. -/
lemma flatten_norms_no_summaries (root : NormasRoot) :
    ∀ n ∈ flatten_norms root, n.resumen_corto = none ∧ n.resumen_largo = none := by
  intro n hn
  simp only [flatten_norms, List.mem_flatMap, List.mem_map] at hn
  obtain ⟨p, _, t, _, o, _, item, _, heq⟩ := hn
  subst heq
  exact ⟨rfl, rfl⟩

lemma sorted_sortGastosDesc (l : List Norm) : List.Sorted gastoOrder (sortGastosDesc l) :=
  List.sorted_insertionSort gastoOrder l

lemma mem_sortGastosDesc {x : Norm} {l : List Norm} : x ∈ sortGastosDesc l ↔ x ∈ l :=
  List.mem_insertionSort _

lemma sortGastosDesc_perm (l : List Norm) : List.Perm (sortGastosDesc l) l :=
  List.perm_insertionSort gastoOrder l

/-- A transformation that does not touch the sort key preserves sortedness
under `map`. -/
lemma sorted_map_of_key (f : Norm → Norm) (hf : ∀ g, montoKey (f g) = montoKey g)
    {l : List Norm} (h : List.Sorted gastoOrder l) :
    List.Sorted gastoOrder (l.map f) := by
  refine List.Pairwise.map f (fun a b hab => ?_) h
  unfold gastoOrder at *
  rw [hf, hf]
  exact hab

/-- Idem for `mapFirst`, the in-place mutation of an `xs[:n]` slice. -/
lemma sorted_mapFirst_of_key (f : Norm → Norm) (hf : ∀ g, montoKey (f g) = montoKey g)
    (n : Nat) {l : List Norm} (h : List.Sorted gastoOrder l) :
    List.Sorted gastoOrder (mapFirst n f l) := by
  have hsplit : List.Sorted gastoOrder (l.take n ++ l.drop n) := by
    rw [List.take_append_drop]; exact h
  rw [List.Sorted, List.pairwise_append] at hsplit
  unfold mapFirst
  rw [List.Sorted, List.pairwise_append]
  refine ⟨List.Pairwise.map f (fun a b hab => ?_) hsplit.1, hsplit.2.1, ?_⟩
  · unfold gastoOrder at *; rw [hf, hf]; exact hab
  · intro a ha b hb
    rcases List.mem_map.mp ha with ⟨a0, ha0, rfl⟩
    have := hsplit.2.2 a0 ha0 b hb
    unfold gastoOrder at *
    rw [hf]
    exact this

lemma montoKey_summarize_gasto (svc : SummarizeSvc) (g : Norm) :
    montoKey (summarize_gasto svc g) = montoKey g := rfl

lemma montoKey_summarize_anexos (svc : SummarizeSvc) (af : String → FetchResult) (g : Norm) :
    montoKey (summarize_anexos svc af g) = montoKey g := rfl

lemma montoKey_cleanNormOrg (g : Norm) : montoKey (cleanNormOrg g) = montoKey g := rfl

/-- The AI block never reorders nor re-keys the expenditure list. -/
lemma ai_stage_fst_sorted (env : RunEnv) (g s : List Norm) (lc : List Tender)
    (h : List.Sorted gastoOrder g) : List.Sorted gastoOrder (ai_stage env g s lc).1 := by
  unfold ai_stage
  split
  · exact sorted_map_of_key _ (montoKey_summarize_anexos env.svc env.anexoFetch)
      (sorted_mapFirst_of_key _ (montoKey_summarize_gasto env.svc) 50 h)
  · exact h

/-! ### Projection lemmas (definitional unfoldings of the two run modes) -/

lemma firstRun_pending (env : RunEnv) :
    (firstRun env).2 =
      (if (processNorms env.fetchDoc (flatten_norms env.normasRoot)).2.2.isEmpty then none
       else some { fecha := env.fecha_iso,
                   pendientes := (processNorms env.fetchDoc (flatten_norms env.normasRoot)).2.2 }) :=
  rfl

lemma firstRun_gastos (env : RunEnv) :
    (firstRun env).1.gastos =
      (ai_stage env (sortGastosDesc (processNorms env.fetchDoc (flatten_norms env.normasRoot)).1)
        (processNorms env.fetchDoc (flatten_norms env.normasRoot)).2.1 env.licitaciones).1 :=
  rfl

lemma firstRun_licitaciones (env : RunEnv) :
    (firstRun env).1.licitaciones =
      (ai_stage env (sortGastosDesc (processNorms env.fetchDoc (flatten_norms env.normasRoot)).1)
        (processNorms env.fetchDoc (flatten_norms env.normasRoot)).2.1 env.licitaciones).2.2 :=
  rfl

lemma retryRun_gastos (existing : DayData) (pending : PendingData)
    (fetchDoc : String → FetchResult) :
    (retryRun existing pending fetchDoc).1.gastos =
      (sortGastosDesc (existing.gastos ++ (processPendientes fetchDoc pending.pendientes).1)).map
        (fun g => { g with organismo := clean_organismo g.organismo }) :=
  rfl

lemma retryRun_sin_gastos (existing : DayData) (pending : PendingData)
    (fetchDoc : String → FetchResult) :
    (retryRun existing pending fetchDoc).1.sin_gastos =
      existing.sin_gastos ++ (processPendientes fetchDoc pending.pendientes).2.1 :=
  rfl

lemma retryRun_pending (existing : DayData) (pending : PendingData)
    (fetchDoc : String → FetchResult) :
    (retryRun existing pending fetchDoc).2 =
      (if (processPendientes fetchDoc pending.pendientes).2.2.isEmpty then none
       else some { pending with
                   pendientes := (processPendientes fetchDoc pending.pendientes).2.2 }) :=
  rfl

/-! ### Scan lemmas -/

/-- A text without the currency marker yields no matches. -/
lemma scanAmounts_no_dollar (fuel : Nat) :
    ∀ cs : List Char, '$' ∉ cs → scanAmounts fuel cs = [] := by
  induction fuel with
  | zero => intro cs _; rfl
  | succ n ih =>
    intro cs h
    cases cs with
    | nil => rfl
    | cons c rest =>
      have hc : ¬ c = '$' := fun hc => h (hc ▸ List.mem_cons_self c rest)
      simp only [scanAmounts, hc, if_false]
      exact ih rest (fun hm => h (List.mem_cons_of_mem c hm))

/-- Every value the scan returns passed the `val > 0` guard. -/
lemma scanAmounts_pos (fuel : Nat) :
    ∀ (cs : List Char) (v : ℚ), v ∈ scanAmounts fuel cs → 0 < v := by
  induction fuel with
  | zero => intro cs v h; cases h
  | succ n ih =>
    intro cs v h
    cases cs with
    | nil => cases h
    | cons c rest =>
      by_cases hc : c = '$'
      · simp only [scanAmounts, hc, if_true] at h
        split at h
        · split at h
          · rcases List.mem_cons.mp h with h1 | h1
            · subst h1; assumption
            · exact ih _ v h1
          · exact ih _ v h
        · exact ih rest v h
      · simp only [scanAmounts, hc, if_false] at h
        exact ih rest v h

/-! ## Views used in the claim statements -/

/-- Number of classified Norms of a dataset (both lists). -/
def classifiedCount (d : DayData) : Nat := d.gastos.length + d.sin_gastos.length

/-- Number of pending Norms recorded by the (possibly absent) sidecar. -/
def pendingCount : Option PendingData → Nat
  | none => 0
  | some p => p.pendientes.length

/-- Identities (URLs) of the pending Norms of the (possibly absent) sidecar. -/
def pendingUrls : Option PendingData → List String
  | none => []
  | some p => p.pendientes.map Norm.url

/-! ## Claims -/

/-- C1: Resumption correctness of the retry run.  For a pending list of `n`
Norms of which `k` process successfully, the persisted sidecar holds exactly
the failed Norms — identified by URL, the Norm identity; the in-place
`organismo` normalization does not change identity — so its size is `n - k`
and never exceeds `n`, and the dataset's classified count grows from `m` to
`m + k`. -/
theorem c1_retry_resumption (existing : DayData) (pending : PendingData)
    (fetchDoc : String → FetchResult) :
    pendingCount (retryRun existing pending fetchDoc).2 =
      pending.pendientes.length -
        (pending.pendientes.filter (normSuccess fetchDoc)).length ∧
    pendingUrls (retryRun existing pending fetchDoc).2 =
      (pending.pendientes.filter (fun it => !(normSuccess fetchDoc it))).map Norm.url ∧
    classifiedCount (retryRun existing pending fetchDoc).1 =
      classifiedCount existing +
        (pending.pendientes.filter (normSuccess fetchDoc)).length ∧
    pendingCount (retryRun existing pending fetchDoc).2 ≤ pending.pendientes.length := by
  have hps := processPendientes_pendientes fetchDoc pending.pendientes
  have hlen : (processPendientes fetchDoc pending.pendientes).2.2.length =
      (pending.pendientes.filter (fun it => !(normSuccess fetchDoc it))).length := by
    rw [hps, List.length_map]
  have hsplit := List.length_eq_length_filter_add (l := pending.pendientes) (normSuccess fetchDoc)
  have hcount := processPendientes_count fetchDoc pending.pendientes
  have h1 : pendingCount (retryRun existing pending fetchDoc).2 =
      (pending.pendientes.filter (fun it => !(normSuccess fetchDoc it))).length := by
    rw [retryRun_pending]
    by_cases hemp : (processPendientes fetchDoc pending.pendientes).2.2.isEmpty
    · have hnil := List.isEmpty_iff.mp hemp
      rw [if_pos hemp]
      rw [hnil] at hlen
      simpa [pendingCount] using hlen
    · rw [if_neg hemp]
      simpa [pendingCount] using hlen
  have h2 : pendingUrls (retryRun existing pending fetchDoc).2 =
      (pending.pendientes.filter (fun it => !(normSuccess fetchDoc it))).map Norm.url := by
    rw [retryRun_pending]
    by_cases hemp : (processPendientes fetchDoc pending.pendientes).2.2.isEmpty
    · have hnil := List.isEmpty_iff.mp hemp
      rw [hps] at hnil
      rw [if_pos hemp]
      rw [List.map_eq_nil_iff.mp hnil]
      rfl
    · rw [if_neg hemp]
      show (processPendientes fetchDoc pending.pendientes).2.2.map Norm.url = _
      rw [hps, List.map_map]
      exact List.map_congr_left (fun a _ => rfl)
  refine ⟨?_, h2, ?_, ?_⟩
  · rw [h1]; omega
  · rw [classifiedCount, classifiedCount, retryRun_gastos, retryRun_sin_gastos,
      List.length_map, List.length_append]
    have hsort : (sortGastosDesc (existing.gastos ++
        (processPendientes fetchDoc pending.pendientes).1)).length =
        existing.gastos.length + (processPendientes fetchDoc pending.pendientes).1.length := by
      rw [(sortGastosDesc_perm _).length_eq, List.length_append]
    rw [hsort]
    omega
  · rw [h1]; omega

/-- C5 (amended): the organization list equals the distinct non-empty
organizations of the expenditure list after a first run; a retry-run merge
leaves the persisted organization list unchanged (it is not recomputed). -/
theorem c5_organismos_amended (env : RunEnv) (existing : DayData) (pending : PendingData) :
    (firstRun env).1.organismos = organismos_unicos (firstRun env).1.gastos ∧
    (retryRun existing pending env.fetchDoc).1.organismos = existing.organismos :=
  ⟨rfl, rfl⟩

lemma sidecar_none_iff {α : Type} (l : List Norm) (mk : α) :
    (if l.isEmpty then (none : Option α) else some mk) = none ↔ l = [] := by
  by_cases h : l.isEmpty
  · simp [h, List.isEmpty_iff.mp h]
  · simp only [h, Bool.false_eq_true, if_false]
    constructor
    · intro hc; exact absurd hc (Option.some_ne_none mk)
    · intro hl; exact absurd (by simp [hl] : l.isEmpty = true) h

/-- C2 (amended): the pending sidecar is absent after a run exactly when every
Norm handled by that run was successfully extracted; the Tenders list and the
summarization attempts play no role in the sidecar's existence. -/
theorem c2_sidecar_amended (env : RunEnv) (existing : DayData) (pending : PendingData) :
    ((firstRun env).2 = none ↔
      ∀ it ∈ flatten_norms env.normasRoot, normSuccess env.fetchDoc it = true) ∧
    ((retryRun existing pending env.fetchDoc).2 = none ↔
      ∀ it ∈ pending.pendientes, normSuccess env.fetchDoc it = true) := by
  constructor
  · rw [firstRun_pending, sidecar_none_iff, processNorms_pendientes, List.filter_eq_nil_iff]
    constructor
    · intro h it hit; simpa using h it hit
    · intro h it hit; simp [h it hit]
  · rw [retryRun_pending, sidecar_none_iff, processPendientes_pendientes,
      List.map_eq_nil_iff, List.filter_eq_nil_iff]
    constructor
    · intro h it hit; simpa using h it hit
    · intro h it hit; simp [h it hit]

/-! ### Concrete fixtures for counterexamples and witnesses -/

def apiNormA : ApiNorm :=
  { nombre := "Resolucion 1", sumario := "sumario uno", url_norma := "http://norma/1" }

/-- A complete first-run environment: one norm that fetches fine and carries no
amounts, a tender scrape that came back empty, and an unavailable AI client. -/
def envA : RunEnv :=
  { fecha_iso := "2025-01-02", fecha_raw := "02/01/2025", numero := "100",
    normasRoot := [("PE", [("Resolucion", [("Ministerio X", [apiNormA])])])],
    fetchDoc := fun _ => FetchResult.ok 200 "texto sin montos",
    anexoFetch := fun _ => FetchResult.timeout,
    licitaciones := [],
    aiAvailable := false,
    svc := fun _ _ => none }

/-- C2 (counterexample): after the first run under `envA` every Norm has an
extraction outcome but the Tenders list is empty and no summarization was
attempted — yet the sidecar is absent, refuting the claimed equivalence
(absence would require a non-empty Tenders list). -/
theorem c2_sidecar_counterexample :
    (main envA { dataFile := none, pendingFile := none }).pendingFile = none ∧
    ∃ d, (main envA { dataFile := none, pendingFile := none }).dataFile = some d ∧
      d.licitaciones = [] ∧ d.errores = 0 ∧ d.sin_gastos.length = 1 :=
  ⟨rfl, (firstRun envA).1, rfl, rfl, rfl, rfl⟩

def tenderB : Tender :=
  { numero := "T1", nombre := "Obra de red", tipo := "Licitacion Publica",
    fecha := "02/01/2025", estado := "Abierta", unidad := "Unidad 1",
    link_id := "ctl00_l1", url := "http://bac/1" }

/-- C3 (counterexample): the first run under `envA` persisted
`licitaciones = []` with no sidecar; the next invocation — although the
scraper would now return a tender — skips the date wholesale, and the empty
tender list stays terminal.  This refutes both "the next invocation re-runs
the tender scrape" and "an empty scrape result is never the terminal
outcome". -/
theorem c3_empty_tenders_counterexample :
    main { envA with licitaciones := [tenderB] }
        (main envA { dataFile := none, pendingFile := none }) =
      main envA { dataFile := none, pendingFile := none } ∧
    ∃ d, (main envA { dataFile := none, pendingFile := none }).dataFile = some d ∧
      d.licitaciones = [] :=
  ⟨rfl, (firstRun envA).1, rfl, rfl⟩

/-- C3 (amended): an empty tender list is terminal, not retried: a date whose
dataset exists without a sidecar is skipped unchanged even when its Tenders
list is empty, and the first run persists the scraper's result as is (shown
here for an unavailable AI client, which leaves the list untouched). -/
theorem c3_empty_tenders_amended (env : RunEnv) (d : DayData)
    (h : d.licitaciones = []) (he : env.aiAvailable = false) :
    main env { dataFile := some d, pendingFile := none } =
      { dataFile := some d, pendingFile := none } ∧
    (firstRun env).1.licitaciones = env.licitaciones := by
  refine ⟨rfl, ?_⟩
  rw [firstRun_licitaciones]
  unfold ai_stage
  rw [if_neg (by simp [he])]

def dayA : DayData := (firstRun envA).1

theorem c3_empty_tenders_amended_witness :
    dayA.licitaciones = [] ∧ envA.aiAvailable = false ∧
    (main envA { dataFile := some dayA, pendingFile := none } =
        { dataFile := some dayA, pendingFile := none } ∧
      (firstRun envA).1.licitaciones = envA.licitaciones) :=
  ⟨rfl, rfl, c3_empty_tenders_amended envA dayA rfl rfl⟩

/-- C4: Pipeline idempotence.  If a date's first run completed (no sidecar was
left), every subsequent invocation — whatever its collaborators would now
answer — leaves both files exactly as they are: the dataset is byte-for-byte
identical, with no duplicate Norms and no re-ordering drift. -/
theorem c4_idempotence (env env2 : RunEnv)
    (h : (main env { dataFile := none, pendingFile := none }).pendingFile = none) :
    main env2 (main env { dataFile := none, pendingFile := none }) =
      main env { dataFile := none, pendingFile := none } := by
  have h2 : (firstRun env).2 = none := h
  have hfs : main env { dataFile := none, pendingFile := none } =
      { dataFile := some (firstRun env).1, pendingFile := none } := by
    show ({ dataFile := some (firstRun env).1, pendingFile := (firstRun env).2 } : FState) = _
    rw [h2]
  rw [hfs]
  rfl

theorem c4_idempotence_witness :
    (main envA { dataFile := none, pendingFile := none }).pendingFile = none ∧
    main envA (main envA { dataFile := none, pendingFile := none }) =
      main envA { dataFile := none, pendingFile := none } :=
  ⟨rfl, c4_idempotence envA envA rfl⟩

def normB : Norm :=
  { nombre := "Resolucion 2", sumario := "sumario dos", url := "http://norma/2",
    tipo := "Resolucion", organismo := "Ministerio Y" }

def existingB : DayData :=
  { fecha := "2025-01-02", fecha_display := "02/01/2025", numero_boletin := "100",
    total_normas := 1, total_anexos := 0, organismos := [], gastos := [],
    sin_gastos := [], licitaciones := [], errores := 1 }

def pendingB : PendingData := { fecha := "2025-01-02", pendientes := [normB] }

def fetchB : String → FetchResult := fun _ => FetchResult.ok 200 "monto $5.000"

/-- C5 (counterexample): a retry run that merges a new expenditure from
"Ministerio Y" leaves the persisted organization list `[]`, no longer equal to
the distinct non-empty organizations of the expenditure list — refuting
"recomputed after every merge (first run and every retry run)". -/
theorem c5_organismos_counterexample :
    (retryRun existingB pendingB fetchB).1.organismos = [] ∧
    organismos_unicos (retryRun existingB pendingB fetchB).1.gastos = ["Ministerio Y"] ∧
    (retryRun existingB pendingB fetchB).1.organismos ≠
      organismos_unicos (retryRun existingB pendingB fetchB).1.gastos := by
  have h1 : (retryRun existingB pendingB fetchB).1.organismos = [] := rfl
  have h2 : organismos_unicos (retryRun existingB pendingB fetchB).1.gastos =
      ["Ministerio Y"] := by with_unfolding_all rfl
  refine ⟨h1, h2, ?_⟩
  rw [h1, h2]
  simp

/-- C6: after any merge — first run or retry run — the persisted expenditure
list is sorted non-increasingly by its amount key `x.get('monto', 0)`. -/
theorem c6_sort_invariant (env : RunEnv) (existing : DayData) (pending : PendingData) :
    List.Sorted gastoOrder (firstRun env).1.gastos ∧
    List.Sorted gastoOrder (retryRun existing pending env.fetchDoc).1.gastos := by
  constructor
  · rw [firstRun_gastos]
    exact ai_stage_fst_sorted env _ _ _ (sorted_sortGastosDesc _)
  · rw [retryRun_gastos]
    exact sorted_map_of_key (fun g => { g with organismo := clean_organismo g.organismo })
      (fun g => rfl) (sorted_sortGastosDesc _)

/-- C7: AmountParser correctness.  The normative examples: `"$1.234,56"`
parses to `1234.56` while `"$0"` and `"$0,00"` yield no value; and the general
laws: the parser is a total function that returns `[]` (not an error) on any
text without the currency marker, and every value it returns is strictly
positive. -/
theorem c7_amount_parsing :
    extract_amounts "$1.234,56" = [(123456 : ℚ) / 100] ∧
    extract_amounts "$0" = [] ∧
    extract_amounts "$0,00" = [] ∧
    (∀ s : String, '$' ∉ s.data → extract_amounts s = []) ∧
    (∀ s : String, ∀ v ∈ extract_amounts s, 0 < v) := by
  refine ⟨by with_unfolding_all rfl, by with_unfolding_all rfl, by with_unfolding_all rfl,
    ?_, ?_⟩
  · intro s h
    exact scanAmounts_no_dollar _ _ h
  · intro s v hv
    exact scanAmounts_pos _ _ v hv

theorem c7_amount_parsing_witness :
    ('$' ∉ ("texto sin montos" : String).data) ∧ extract_amounts "texto sin montos" = [] :=
  ⟨by decide, c7_amount_parsing.2.2.2.1 "texto sin montos" (by decide)⟩

/-- C8: Classification contract.  `process_norm` is a pure function of its
inputs; on a 200 response whose text parses to a non-empty amount list the
item becomes an expenditure with `monto = max(values)` (shown to be a maximum
of the list), `todos_montos = len(values)` and excerpt `text[:800]` (the
source's fixed cut inside the spec's 600–800 window); with no parsed amounts
the outcome is non-expenditure, with the same excerpt. -/
theorem c8_classification (item : Norm) (text : String) :
    (extract_amounts text ≠ [] →
      process_norm item (FetchResult.ok 200 text) =
        (true,
         { item with text_snippet := some (text.take 800),
                     monto := some (list_max (extract_amounts text)),
                     monto_fmt := some (format_money (list_max (extract_amounts text))),
                     todos_montos := some (extract_amounts text).length,
                     tiene_gasto := some true }, none) ∧
      list_max (extract_amounts text) ∈ extract_amounts text ∧
      (∀ v ∈ extract_amounts text, v ≤ list_max (extract_amounts text))) ∧
    (extract_amounts text = [] →
      process_norm item (FetchResult.ok 200 text) =
        (true, { item with text_snippet := some (text.take 800),
                           tiene_gasto := some false }, none)) := by
  constructor
  · intro h
    refine ⟨?_, list_max_mem _ h, list_max_ge _⟩
    simp only [process_norm]
    rw [if_neg (by simp), if_neg (by simp [List.isEmpty_iff, h])]
  · intro h
    simp only [process_norm]
    rw [if_neg (by simp), if_pos (by simp [List.isEmpty_iff, h])]

theorem c8_classification_witness :
    extract_amounts "$7" ≠ [] ∧
    (process_norm normB (FetchResult.ok 200 "$7") =
       (true,
        { normB with text_snippet := some (("$7" : String).take 800),
                     monto := some (list_max (extract_amounts "$7")),
                     monto_fmt := some (format_money (list_max (extract_amounts "$7"))),
                     todos_montos := some (extract_amounts "$7").length,
                     tiene_gasto := some true }, none) ∧
     list_max (extract_amounts "$7") ∈ extract_amounts "$7" ∧
     (∀ v ∈ extract_amounts "$7", v ≤ list_max (extract_amounts "$7"))) :=
  ⟨by with_unfolding_all decide,
   (c8_classification normB "$7").1 (by with_unfolding_all decide)⟩

/-- C9 (counterexample): on a failed call the adapter returns the empty string
`""` — a value of the result type, not the distinguished absence `None` the
claim describes — and the same `""` is also what a successful call returns
when its stripped response is blank, so failure is not signalled by a
distinguished value. -/
theorem c9_summarize_counterexample :
    get_ai_summary none = "" ∧ get_ai_summary (some " ") = "" :=
  ⟨rfl, by with_unfolding_all rfl⟩

/-- C9 (amended): the adapter swallows every failure and returns `""` instead
of raising; the caller's `or` fallback then sets the record's short summary to
its own `sumario`; and the pending sidecar — hence re-enqueueing — is computed
from the extraction results alone, so a summarization failure never blocks a
Norm's completion nor re-enqueues it. -/
theorem c9_summarize_amended (svc : SummarizeSvc) (g : Norm)
    (h : svc (gasto_prompt g) CORTO = none) :
    (summarize_gasto svc g).resumen_corto = some g.sumario ∧
    (∀ env : RunEnv, (firstRun env).2 =
      (if (processNorms env.fetchDoc (flatten_norms env.normasRoot)).2.2.isEmpty then none
       else some { fecha := env.fecha_iso,
                   pendientes :=
                     (processNorms env.fetchDoc (flatten_norms env.normasRoot)).2.2 })) := by
  constructor
  · have hc : get_ai_summary (svc (gasto_prompt g) CORTO) = "" := by rw [h]; rfl
    simp only [summarize_gasto]
    rw [hc]
    simp
  · intro env
    exact firstRun_pending env

def svcNone : SummarizeSvc := fun _ _ => none

theorem c9_summarize_amended_witness :
    svcNone (gasto_prompt normB) CORTO = none ∧
    ((summarize_gasto svcNone normB).resumen_corto = some normB.sumario ∧
     (∀ env : RunEnv, (firstRun env).2 =
       (if (processNorms env.fetchDoc (flatten_norms env.normasRoot)).2.2.isEmpty then none
        else some { fecha := env.fecha_iso,
                    pendientes :=
                      (processNorms env.fetchDoc (flatten_norms env.normasRoot)).2.2 }))) :=
  ⟨rfl, c9_summarize_amended svcNone normB rfl⟩

/-- The identity-plus-summaries view of a record (identity = URL). -/
def summaryView (g : Norm) : String × Option String × Option String :=
  (g.url, g.resumen_corto, g.resumen_largo)

/-- C10: AI summarization runs only in the first-run branch.  If no pending
item carries a summary (which conjunct three shows holds for every sidecar the
first run writes), then after a retry run every persisted record either has no
short/long summary (the freshly merged ones) or carries exactly the
identity-and-summary view of a record of the previous dataset; and a date with
a dataset and no sidecar is never touched again, so the summary fields stay
absent forever. -/
theorem c10_retry_no_summaries (existing : DayData) (pending : PendingData)
    (fetchDoc : String → FetchResult)
    (h : ∀ it ∈ pending.pendientes, it.resumen_corto = none ∧ it.resumen_largo = none) :
    (∀ g, (g ∈ (retryRun existing pending fetchDoc).1.gastos ∨
           g ∈ (retryRun existing pending fetchDoc).1.sin_gastos) →
      (g.resumen_corto = none ∧ g.resumen_largo = none) ∨
      summaryView g ∈ (existing.gastos ++ existing.sin_gastos).map summaryView) ∧
    (∀ p, (retryRun existing pending fetchDoc).2 = some p →
      ∀ it ∈ p.pendientes, it.resumen_corto = none ∧ it.resumen_largo = none) ∧
    (∀ env : RunEnv, ∀ p, (firstRun env).2 = some p →
      ∀ it ∈ p.pendientes, it.resumen_corto = none ∧ it.resumen_largo = none) ∧
    (∀ env : RunEnv, ∀ d : DayData,
      main env { dataFile := some d, pendingFile := none } =
        { dataFile := some d, pendingFile := none }) := by
  refine ⟨?_, ?_, ?_, fun env d => rfl⟩
  · intro g hg
    rcases hg with hg | hg
    · rw [retryRun_gastos] at hg
      rcases List.mem_map.mp hg with ⟨g0, hg0, rfl⟩
      rw [mem_sortGastosDesc] at hg0
      rcases List.mem_append.mp hg0 with h0 | h0
      · refine Or.inr ?_
        show summaryView g0 ∈ (existing.gastos ++ existing.sin_gastos).map summaryView
        exact List.mem_map_of_mem summaryView (List.mem_append_left _ h0)
      · rcases processPendientes_summaries fetchDoc pending.pendientes g0 (Or.inl h0) with
          ⟨it, hit, hc, hl⟩
        exact Or.inl ⟨hc.trans (h it hit).1, hl.trans (h it hit).2⟩
    · rw [retryRun_sin_gastos] at hg
      rcases List.mem_append.mp hg with h0 | h0
      · exact Or.inr (List.mem_map_of_mem summaryView (List.mem_append_right _ h0))
      · rcases processPendientes_summaries fetchDoc pending.pendientes g (Or.inr h0) with
          ⟨it, hit, hc, hl⟩
        exact Or.inl ⟨hc.trans (h it hit).1, hl.trans (h it hit).2⟩
  · intro p hp it hit
    rw [retryRun_pending] at hp
    by_cases hemp : (processPendientes fetchDoc pending.pendientes).2.2.isEmpty
    · rw [if_pos hemp] at hp
      cases hp
    · rw [if_neg hemp] at hp
      have hp2 : p.pendientes = (processPendientes fetchDoc pending.pendientes).2.2 := by
        rw [← Option.some_inj.mp hp]
      rw [hp2, processPendientes_pendientes] at hit
      rcases List.mem_map.mp hit with ⟨it0, hit0, rfl⟩
      have hmem := List.mem_of_mem_filter hit0
      exact ⟨(h it0 hmem).1, (h it0 hmem).2⟩
  · intro env p hp it hit
    rw [firstRun_pending] at hp
    by_cases hemp : (processNorms env.fetchDoc (flatten_norms env.normasRoot)).2.2.isEmpty
    · rw [if_pos hemp] at hp
      cases hp
    · rw [if_neg hemp] at hp
      have hp2 : p.pendientes =
          (processNorms env.fetchDoc (flatten_norms env.normasRoot)).2.2 := by
        rw [← Option.some_inj.mp hp]
      rw [hp2, processNorms_pendientes] at hit
      exact flatten_norms_no_summaries env.normasRoot it (List.mem_of_mem_filter hit)

theorem c10_retry_no_summaries_witness :
    (∀ it ∈ pendingB.pendientes, it.resumen_corto = none ∧ it.resumen_largo = none) ∧
    ((∀ g, (g ∈ (retryRun existingB pendingB fetchB).1.gastos ∨
            g ∈ (retryRun existingB pendingB fetchB).1.sin_gastos) →
       (g.resumen_corto = none ∧ g.resumen_largo = none) ∨
       summaryView g ∈ (existingB.gastos ++ existingB.sin_gastos).map summaryView) ∧
     (∀ p, (retryRun existingB pendingB fetchB).2 = some p →
       ∀ it ∈ p.pendientes, it.resumen_corto = none ∧ it.resumen_largo = none) ∧
     (∀ env : RunEnv, ∀ p, (firstRun env).2 = some p →
       ∀ it ∈ p.pendientes, it.resumen_corto = none ∧ it.resumen_largo = none) ∧
     (∀ env : RunEnv, ∀ d : DayData,
       main env { dataFile := some d, pendingFile := none } =
         { dataFile := some d, pendingFile := none })) :=
  ⟨by decide, c10_retry_no_summaries existingB pendingB fetchB (by decide)⟩

end Boletin
